import Mathlib

/-!
Shallow embedding of `pybliometrics/scopus/affiliation_search.py` and
`pybliometrics/scopus/plumx_metrics.py`.

JSON dictionaries are embedded as structures with `Option`-typed fields:
`none` models an absent key, matching Python's `dict.get`.  The helper
functions `check_parameter_value`, `check_field_consistency` and
`check_integrity` live in `pybliometrics.scopus.utils`, which is not part
of the supplied sources; they are modelled from the specification and
marked as such in their doc comments.  Fallible code returns `Except`.
-/

namespace Pybliometrics

/-- Python exceptions raised by this module: `ValueError` for configuration
errors (bad enumerated parameter, mismatched integrity field names) and
`AttributeError` for an integrity violation under action "raise". -/
inductive PyErr where
  | valueError : PyErr
  | attributeError : PyErr
deriving DecidableEq

/-- Modelled from the spec: `check_parameter_value` from
`pybliometrics.scopus.utils` (not under src/).  "Configuration errors
(invalid enumerated parameter value ...) raised immediately and
unconditionally": the value is validated against an allow-list and a
`ValueError` is raised when it is not in the list. -/
def check_parameter_value (value : String) (allowed : List String) :
    Except PyErr Unit :=
  if allowed.contains value then .ok () else .error .valueError

/-- Modelled from the spec: `check_field_consistency` from
`pybliometrics.scopus.utils` (not under src/).  "Verify every declared
field name exists on the Record shape (fails fast with a configuration
error otherwise)": every integrity field must be one of the record's
field names, else a `ValueError` is raised. -/
def check_field_consistency (integrity : List String) (fields : List String) :
    Except PyErr Unit :=
  if integrity.all (fun f => fields.contains f) then .ok () else .error .valueError

/-- One entry of an item's `name-variant` sub-list; `dollar` is its `"$"`
key (`none` when the key is absent). -/
structure VariantEntry where
  dollar : Option String
deriving DecidableEq

/-- One element of the affiliation search JSON result list, with the seven
keys read by `AffiliationSearch.affiliations`; `none` models an absent key. -/
structure AffItem where
  eid : Option String
  affiliation_name : Option String
  name_variant : Option (List VariantEntry)
  document_count : Option String
  city : Option String
  country : Option String
  parent_affiliation_id : Option String
deriving DecidableEq

/-- The `Affiliation` namedtuple with field order
(eid, name, variant, documents, city, country, parent).  `variant` and
`documents` are plain strings because the code always supplies them
(a `";"`-join and the `'0'` default). -/
structure Affiliation where
  eid : Option String
  name : Option String
  variant : String
  documents : String
  city : Option String
  country : Option String
  parent : Option String
deriving DecidableEq

/-- The ordered field names of the `Affiliation` namedtuple
(`fields = 'eid name variant documents city country parent'`). -/
def affiliationFields : List String :=
  ["eid", "name", "variant", "documents", "city", "country", "parent"]

/-- Python inequality between a string and an optional string, as in
`d.get('$', "") != name` where `name` may be `None`: a string is never
equal to `None`. -/
def pyStrNeOpt (s : String) (o : Option String) : Bool :=
  match o with
  | none => true
  | some t => s != t

/-- The list comprehension
`[d.get('$', "") for d in item.get('name-variant', []) if d.get('$', "") != name]`. -/
def variantsOf (name : Option String) : List VariantEntry → List String
  | [] => []
  | d :: ds =>
      let v := d.dollar.getD ""
      if pyStrNeOpt v name then v :: variantsOf name ds
      else variantsOf name ds

/-- The body of the parse loop of `AffiliationSearch.affiliations`: maps
one JSON element to one `Affiliation` record.  Fields in namedtuple order
(eid, name, variant, documents, city, country, parent). -/
def mkAffiliation (item : AffItem) : Affiliation :=
  let name := item.affiliation_name
  ⟨item.eid, name,
   String.intercalate ";" (variantsOf name (item.name_variant.getD [])),
   item.document_count.getD "0",
   item.city, item.country, item.parent_affiliation_id⟩

/-- Whether a record's field named `f` holds a null/empty value, as the
integrity checker understands it (`none` or the empty string). -/
def Affiliation.fieldEmpty (a : Affiliation) (f : String) : Bool :=
  match f with
  | "eid" => a.eid.getD "" == ""
  | "name" => a.name.getD "" == ""
  | "variant" => a.variant == ""
  | "documents" => a.documents == ""
  | "city" => a.city.getD "" == ""
  | "country" => a.country.getD "" == ""
  | "parent" => a.parent.getD "" == ""
  | _ => false

/-- Modelled from the spec: `check_integrity` from
`pybliometrics.scopus.utils` (not under src/).  "Scan all records for any
null/empty value in a required field.  On violation: raise a structured
error if action is raise; emit a non-fatal warning otherwise"; "with
action=raise no further Records are processed" after the first violation;
"no side effects when the list is empty or no fields are declared".
Returns the list of warning messages emitted on the non-raise path. -/
def check_integrity (recs : List Affiliation) (fields : List String)
    (action : String) : Except PyErr (List String) :=
  match recs with
  | [] => .ok []
  | r :: rs =>
      if fields.any r.fieldEmpty then
        if action = "raise" then .error .attributeError
        else
          match check_integrity rs fields action with
          | .ok ws => .ok ("incomplete record" :: ws)
          | .error e => .error e
      else check_integrity rs fields action

/-- Python's `out or None`: the empty list is falsy, so it becomes `None`. -/
def orNone (l : List α) : Option (List α) :=
  if l.isEmpty then none else some l

/-- `AffiliationSearch.affiliations`: check field consistency, map every
JSON element to a record, run the integrity check, and return
`out or None`.  Warning messages of the warn path are discarded here (the
Python `warn` call has no effect on the returned value). -/
def affiliations (integrity : List String) (action : String)
    (json : List AffItem) : Except PyErr (Option (List Affiliation)) := do
  _ ← check_field_consistency integrity affiliationFields
  let out := json.map mkAffiliation
  _ ← check_integrity out integrity action
  return orNone out

/-- The allow-list for `integrity_action` in `AffiliationSearch.__init__`. -/
def integrityActionAllowed : List String := ["warn", "raise"]

/-- The validation phase of `AffiliationSearch.__init__`: the
`integrity_action` check runs before the delegation to `Search.__init__`,
which is abstracted as the argument `super`. -/
def affiliationSearchInit {σ : Type} (integrity_action : String)
    (super : Unit → Except PyErr σ) : Except PyErr σ := do
  _ ← check_parameter_value integrity_action integrityActionAllowed
  super ()

/-- One entry of a count type's `sources` sub-list. -/
structure SrcEntry where
  name : Option String
  total : Option Int
deriving DecidableEq

/-- One entry of a category's `count_types` sub-list. -/
structure CountType where
  name : Option String
  total : Option Int
  sources : Option (List SrcEntry)
deriving DecidableEq

/-- One element of the `count_categories` list of the PlumX JSON. -/
structure CountCategory where
  name : Option String
  total : Option Int
  count_types : Option (List CountType)
deriving DecidableEq

/-- The PlumX response JSON object; `none` models an absent
`count_categories` key. -/
structure PlumXJson where
  count_categories : Option (List CountCategory)
deriving DecidableEq

/-- The `Category` namedtuple (name, total) of `category_totals`. -/
structure Category where
  name : Option String
  total : Option Int
deriving DecidableEq

/-- The `Metric` namedtuple (name, total) of `_list_metrics_totals`. -/
structure Metric where
  name : Option String
  total : Option Int
deriving DecidableEq

/-- Python truthiness of an optional string: absent (`None`) and the empty
string are falsy. -/
def pyTruthyStr : Option String → Bool
  | none => false
  | some s => s != ""

/-- Python truthiness of an optional integer count: absent (`None`) and
zero are falsy. -/
def pyTruthyInt : Option Int → Bool
  | none => false
  | some t => t != 0

/-- Python truthiness of an optional list: absent (`None`) and the empty
list are falsy. -/
def pyTruthyList : Option (List α) → Bool
  | none => false
  | some l => !l.isEmpty

/-- The loop of `PlumXMetrics.category_totals`: keep the name/total of
every category whose name and total are both truthy. -/
def categoryTotalsList : List CountCategory → List Category
  | [] => []
  | item :: rest =>
      if pyTruthyStr item.name && pyTruthyInt item.total then
        ⟨item.name, item.total⟩ :: categoryTotalsList rest
      else categoryTotalsList rest

/-- `PlumXMetrics.category_totals`: the filtered list, or `None` when it
is empty (`out or None`). -/
def category_totals (j : PlumXJson) : Option (List Category) :=
  orNone (categoryTotalsList (j.count_categories.getD []))

/-- `_category_metrics`: accumulate, in input order, the `count_types`
entries of every category whose `name` equals `category_name`
(`item.get('name') == category_name`; `None` never equals a string). -/
def categoryMetricsList (category_name : String) :
    List CountCategory → List CountType
  | [] => []
  | item :: rest =>
      (if item.name = some category_name then item.count_types.getD [] else [])
        ++ categoryMetricsList category_name rest

/-- `_list_metrics_totals`: keep the (name, total) pairs where both are
truthy and wrap each as a `Metric` namedtuple.  The function only reads
the `name` and `total` keys of its dicts, so it is embedded over the
projected pairs. -/
def list_metrics_totals (metric_counts : List (Option String × Option Int)) :
    List Metric :=
  let values := metric_counts.filter (fun m => pyTruthyStr m.1 && pyTruthyInt m.2)
  values.map (fun v => ⟨v.1, v.2⟩)

/-- Projection of a `count_types` entry to the keys `_list_metrics_totals`
reads. -/
def CountType.kv (ct : CountType) : Option String × Option Int :=
  (ct.name, ct.total)

/-- Projection of a `sources` entry to the keys `_list_metrics_totals`
reads. -/
def SrcEntry.kv (s : SrcEntry) : Option String × Option Int :=
  (s.name, s.total)

/-- `PlumXMetrics.capture`. -/
def capture (j : PlumXJson) : Option (List Metric) :=
  orNone (list_metrics_totals
    ((categoryMetricsList "capture" (j.count_categories.getD [])).map CountType.kv))

/-- `PlumXMetrics.mention`. -/
def mention (j : PlumXJson) : Option (List Metric) :=
  orNone (list_metrics_totals
    ((categoryMetricsList "mention" (j.count_categories.getD [])).map CountType.kv))

/-- `PlumXMetrics.social_media` (category name `socialMedia`). -/
def social_media (j : PlumXJson) : Option (List Metric) :=
  orNone (list_metrics_totals
    ((categoryMetricsList "socialMedia" (j.count_categories.getD [])).map CountType.kv))

/-- `PlumXMetrics.usage`. -/
def usage (j : PlumXJson) : Option (List Metric) :=
  orNone (list_metrics_totals
    ((categoryMetricsList "usage" (j.count_categories.getD [])).map CountType.kv))

/-- The inner loop of `PlumXMetrics.citation`: concatenate the `sources`
sub-lists of the count-type entries whose `sources` key is truthy. -/
def citationSourcesList : List CountType → List SrcEntry
  | [] => []
  | item :: rest =>
      (if pyTruthyList item.sources then item.sources.getD [] else [])
        ++ citationSourcesList rest

/-- `PlumXMetrics.citation`, including the `if citation_metrics:` guard
around the source-collecting loop. -/
def citation (j : PlumXJson) : Option (List Metric) :=
  let citation_metrics := categoryMetricsList "citation" (j.count_categories.getD [])
  let source_metrics :=
    if citation_metrics.isEmpty then [] else citationSourcesList citation_metrics
  orNone (list_metrics_totals (source_metrics.map SrcEntry.kv))

/-- The allow-list of the 33 `id_type` tokens in `PlumXMetrics.__init__`. -/
def idTypeAllowed : List String :=
  ["airitiDocId", "arxivId", "cabiAbstractId", "citeulikeId",
   "digitalMeasuresArtifactId", "doi", "elsevierId", "elsevierPii",
   "facebookCountUrlId", "figshareArticleId", "githubRepoId", "isbn",
   "lccn", "medwaveId", "nctId", "oclc", "pittEprintDscholarId", "pmcid",
   "pmid", "redditId", "repecHandle", "repoUrl", "scieloId", "sdEid",
   "slideshareUrlId", "smithsonianPddrId", "soundcloudTrackId", "ssrnId",
   "urlId", "usPatentApplicationId", "usPatentPublicationId",
   "vimeoVideoId", "youtubeVideoId"]

/-- The validation phase of `PlumXMetrics.__init__`: the `id_type` check
runs before the delegation to `Retrieval.__init__`, abstracted as `super`. -/
def plumXMetricsInit {σ : Type} (id_type : String)
    (super : Unit → Except PyErr σ) : Except PyErr σ := do
  _ ← check_parameter_value id_type idTypeAllowed
  super ()

/-! ### Helper lemmas -/

lemma variantsOf_eq_filter_map (name : Option String) (l : List VariantEntry) :
    variantsOf name l =
      (l.filter (fun d => pyStrNeOpt (d.dollar.getD "") name)).map
        (fun d => d.dollar.getD "") := by
  induction l with
  | nil => rfl
  | cons d ds ih =>
      unfold variantsOf
      cases h : pyStrNeOpt (d.dollar.getD "") name
      · simp [h, ih, List.filter_cons]
      · simp [h, ih, List.filter_cons]

lemma check_integrity_raise_error_of_mem (recs : List Affiliation)
    (fields : List String) (r : Affiliation) (hr : r ∈ recs)
    (hv : fields.any r.fieldEmpty = true) :
    check_integrity recs fields "raise" = .error .attributeError := by
  induction recs with
  | nil => cases hr
  | cons a rs ih =>
      rcases List.mem_cons.mp hr with rfl | hmem
      · simp [check_integrity, hv]
      · by_cases ha : fields.any a.fieldEmpty
        · simp [check_integrity, ha]
        · simp [check_integrity, ha, ih hmem]

lemma check_integrity_warn_ok (recs : List Affiliation) (fields : List String) :
    ∃ ws, check_integrity recs fields "warn" = .ok ws := by
  induction recs with
  | nil => exact ⟨[], rfl⟩
  | cons a rs ih =>
      obtain ⟨ws, hws⟩ := ih
      by_cases ha : fields.any a.fieldEmpty
      · exact ⟨"incomplete record" :: ws, by simp [check_integrity, ha, hws]⟩
      · exact ⟨ws, by simp [check_integrity, ha, hws]⟩

lemma check_integrity_warn_nonempty (recs : List Affiliation)
    (fields : List String) (r : Affiliation) (hr : r ∈ recs)
    (hv : fields.any r.fieldEmpty = true) :
    ∃ ws, check_integrity recs fields "warn" = .ok ws ∧ ws ≠ [] := by
  induction recs with
  | nil => cases hr
  | cons a rs ih =>
      by_cases ha : fields.any a.fieldEmpty
      · obtain ⟨ws, hws⟩ := check_integrity_warn_ok rs fields
        exact ⟨"incomplete record" :: ws, by simp [check_integrity, ha, hws], by simp⟩
      · rcases List.mem_cons.mp hr with rfl | hmem
        · exact absurd hv (by simp [ha])
        · obtain ⟨ws, hws, hne⟩ := ih hmem
          exact ⟨ws, by simp [check_integrity, ha, hws], hne⟩

lemma check_integrity_clean_front (pre l : List Affiliation)
    (fields : List String) (action : String)
    (hpre : ∀ a ∈ pre, fields.any a.fieldEmpty = false) :
    check_integrity (pre ++ l) fields action = check_integrity l fields action := by
  induction pre with
  | nil => rfl
  | cons a rest ih =>
      have ha : fields.any a.fieldEmpty = false := hpre a (by simp)
      simp only [List.cons_append, check_integrity, ha]
      simp only [Bool.false_eq_true, if_false]
      exact ih (fun b hb => hpre b (by simp [hb]))

/-! ### Claim theorems -/

/-- C1: if `integrity_fields` contains a name that is not one of the
`Affiliation` field names, `AffiliationSearch.affiliations` raises a
`ValueError` — for every JSON input alike, hence before any element is
parsed or any record inspected. -/
theorem affiliations_unknown_integrity_field (integrity : List String)
    (action : String) (f : String) (hf : f ∈ integrity)
    (hnf : f ∉ affiliationFields) :
    ∀ json : List AffItem,
      affiliations integrity action json = .error .valueError := by
  intro json
  have h2 : ¬ ∀ x ∈ integrity, x ∈ affiliationFields :=
    fun hall => hnf (hall f hf)
  have h3 : ¬ ∀ x ∈ integrity, affiliationFields.contains x = true :=
    fun hc => h2 (fun x hx => by simpa using hc x hx)
  simp only [affiliations, check_field_consistency, List.all_eq_true, if_neg h3]
  rfl

theorem affiliations_unknown_integrity_field_witness :
    affiliations ["bogus"] "raise" [] = .error .valueError :=
  affiliations_unknown_integrity_field ["bogus"] "raise" "bogus"
    (by decide) (by decide) []

/-- C2: when some record has a null/empty value in a declared integrity
field, the integrity check errors under action "raise" and returns with a
non-empty list of warnings under action "warn"; under "raise", records
after the first violation are never processed (the result on a clean
prefix followed by a violating record does not depend on the tail). -/
theorem check_integrity_violation_behavior (recs : List Affiliation)
    (fields : List String) (r : Affiliation) (fld : String)
    (hr : r ∈ recs) (hfld : fld ∈ fields) (hempty : r.fieldEmpty fld = true)
    (pre post : List Affiliation) (bad : Affiliation)
    (hpre : ∀ a ∈ pre, fields.any a.fieldEmpty = false)
    (hbad : fields.any bad.fieldEmpty = true) :
    check_integrity recs fields "raise" = .error .attributeError ∧
    (∃ ws, check_integrity recs fields "warn" = .ok ws ∧ ws ≠ []) ∧
    check_integrity (pre ++ bad :: post) fields "raise" =
      check_integrity (pre ++ [bad]) fields "raise" := by
  have hv : fields.any r.fieldEmpty = true :=
    List.any_eq_true.mpr ⟨fld, hfld, hempty⟩
  refine ⟨check_integrity_raise_error_of_mem recs fields r hr hv,
          check_integrity_warn_nonempty recs fields r hr hv, ?_⟩
  rw [check_integrity_clean_front pre (bad :: post) fields "raise" hpre,
      check_integrity_clean_front pre [bad] fields "raise" hpre]
  simp [check_integrity, hbad]

theorem check_integrity_violation_behavior_witness :
    check_integrity [⟨none, none, "", "", none, none, none⟩] ["eid"] "raise" =
      .error .attributeError ∧
    (∃ ws, check_integrity [⟨none, none, "", "", none, none, none⟩] ["eid"] "warn" =
      .ok ws ∧ ws ≠ []) ∧
    check_integrity ([] ++ ⟨none, none, "", "", none, none, none⟩ :: []) ["eid"] "raise" =
      check_integrity ([] ++ [⟨none, none, "", "", none, none, none⟩]) ["eid"] "raise" :=
  check_integrity_violation_behavior
    [⟨none, none, "", "", none, none, none⟩] ["eid"]
    ⟨none, none, "", "", none, none, none⟩ "eid"
    (by decide) (by decide) (by decide)
    [] [] ⟨none, none, "", "", none, none, none⟩
    (by decide) (by decide)

/-- A JSON element with none of the known keys present. -/
def emptyAffItem : AffItem := ⟨none, none, none, none, none, none, none⟩

/-- C3 counterexample: on a JSON object with no keys, the mapper fills the
missing `eid` field with null (`none`), which is neither the empty string
nor a zero-count — the claimed defaults "empty string or zero-count" do
not hold for the plain string fields. -/
theorem mkAffiliation_missing_eid_is_null :
    emptyAffItem.eid = none ∧
    (mkAffiliation emptyAffItem).eid ≠ some "" ∧
    (mkAffiliation emptyAffItem).eid ≠ some "0" := by decide

/-- C3 (amended): the mapper is total (a function, it can raise no
missing-field error) and each missing key maps to its defined default:
null for eid, name, city, country and parent; the empty string for
variant; the string "0" for documents. -/
theorem mkAffiliation_missing_key_defaults (item : AffItem) :
    (item.eid = none → (mkAffiliation item).eid = none) ∧
    (item.affiliation_name = none → (mkAffiliation item).name = none) ∧
    (item.name_variant = none → (mkAffiliation item).variant = "") ∧
    (item.document_count = none → (mkAffiliation item).documents = "0") ∧
    (item.city = none → (mkAffiliation item).city = none) ∧
    (item.country = none → (mkAffiliation item).country = none) ∧
    (item.parent_affiliation_id = none → (mkAffiliation item).parent = none) := by
  refine ⟨fun h => by simp [mkAffiliation, h],
          fun h => by simp [mkAffiliation, h],
          fun h => by simp [mkAffiliation, h, variantsOf, String.intercalate],
          fun h => by simp [mkAffiliation, h],
          fun h => by simp [mkAffiliation, h],
          fun h => by simp [mkAffiliation, h],
          fun h => by simp [mkAffiliation, h]⟩

theorem mkAffiliation_missing_key_defaults_witness :
    (mkAffiliation emptyAffItem).eid = none ∧
    (mkAffiliation emptyAffItem).name = none ∧
    (mkAffiliation emptyAffItem).variant = "" ∧
    (mkAffiliation emptyAffItem).documents = "0" ∧
    (mkAffiliation emptyAffItem).city = none ∧
    (mkAffiliation emptyAffItem).country = none ∧
    (mkAffiliation emptyAffItem).parent = none :=
  ⟨(mkAffiliation_missing_key_defaults emptyAffItem).1 rfl,
   (mkAffiliation_missing_key_defaults emptyAffItem).2.1 rfl,
   (mkAffiliation_missing_key_defaults emptyAffItem).2.2.1 rfl,
   (mkAffiliation_missing_key_defaults emptyAffItem).2.2.2.1 rfl,
   (mkAffiliation_missing_key_defaults emptyAffItem).2.2.2.2.1 rfl,
   (mkAffiliation_missing_key_defaults emptyAffItem).2.2.2.2.2.1 rfl,
   (mkAffiliation_missing_key_defaults emptyAffItem).2.2.2.2.2.2 rfl⟩

/-- C4: when the JSON result list is empty, every record-producing
accessor returns `None` rather than an empty list: `affiliations` on an
empty element list (with a consistent integrity configuration), and all
PlumX accessors when `count_categories` is the empty list. -/
theorem empty_results_yield_none (integrity : List String) (action : String)
    (hint : ∀ f ∈ integrity, f ∈ affiliationFields)
    (j : PlumXJson) (hj : j.count_categories = some []) :
    affiliations integrity action [] = .ok none ∧
    category_totals j = none ∧
    capture j = none ∧
    citation j = none ∧
    mention j = none ∧
    social_media j = none ∧
    usage j = none := by
  have hc : ∀ x ∈ integrity, affiliationFields.contains x = true := by
    intro x hx
    simpa using hint x hx
  refine ⟨?_, ?_, ?_, ?_, ?_, ?_, ?_⟩
  · simp only [affiliations, check_field_consistency, List.all_eq_true, if_pos hc]
    rfl
  all_goals
    simp [category_totals, capture, citation, mention, social_media, usage,
      hj, categoryTotalsList, categoryMetricsList, citationSourcesList,
      list_metrics_totals, orNone]

theorem empty_results_yield_none_witness :
    affiliations ["eid"] "raise" [] = .ok none ∧
    category_totals ⟨some []⟩ = none ∧
    capture ⟨some []⟩ = none ∧
    citation ⟨some []⟩ = none ∧
    mention ⟨some []⟩ = none ∧
    social_media ⟨some []⟩ = none ∧
    usage ⟨some []⟩ = none :=
  empty_results_yield_none ["eid"] "raise" (by decide) ⟨some []⟩ rfl

/-- C5: the constructor checks run before the delegation to the
superclass (abstracted as `super`): a value outside the allow-list gives
a `ValueError` whatever `super` would do, and a value inside the
allow-list makes the constructor proceed exactly as `super`; the
`id_type` allow-list has exactly 33 tokens and the `integrity_action`
allow-list is ("warn", "raise"). -/
theorem init_enum_validation {σ : Type} (v : String)
    (super : Unit → Except PyErr σ) :
    (v ∉ integrityActionAllowed →
      affiliationSearchInit v super = .error .valueError) ∧
    (v ∈ integrityActionAllowed → affiliationSearchInit v super = super ()) ∧
    (v ∉ idTypeAllowed → plumXMetricsInit v super = .error .valueError) ∧
    (v ∈ idTypeAllowed → plumXMetricsInit v super = super ()) ∧
    idTypeAllowed.length = 33 ∧
    integrityActionAllowed = ["warn", "raise"] := by
  refine ⟨?_, ?_, ?_, ?_, rfl, rfl⟩
  · intro h
    have hc : integrityActionAllowed.contains v = false := by simpa using h
    simp only [affiliationSearchInit, check_parameter_value, hc,
      Bool.false_eq_true, if_false]
    rfl
  · intro h
    have hc : integrityActionAllowed.contains v = true := by simpa using h
    simp only [affiliationSearchInit, check_parameter_value, hc, if_true]
    rfl
  · intro h
    have hc : idTypeAllowed.contains v = false := by simpa using h
    simp only [plumXMetricsInit, check_parameter_value, hc,
      Bool.false_eq_true, if_false]
    rfl
  · intro h
    have hc : idTypeAllowed.contains v = true := by simpa using h
    simp only [plumXMetricsInit, check_parameter_value, hc, if_true]
    rfl

theorem init_enum_validation_witness :
    affiliationSearchInit "xyz" (fun _ => (Except.ok () : Except PyErr Unit)) =
      .error .valueError ∧
    affiliationSearchInit "warn" (fun _ => (Except.ok () : Except PyErr Unit)) =
      .ok () ∧
    plumXMetricsInit "xyz" (fun _ => (Except.ok () : Except PyErr Unit)) =
      .error .valueError ∧
    plumXMetricsInit "doi" (fun _ => (Except.ok () : Except PyErr Unit)) =
      .ok () ∧
    idTypeAllowed.length = 33 :=
  ⟨(init_enum_validation "xyz" (fun _ => (Except.ok () : Except PyErr Unit))).1
      (by decide),
   (init_enum_validation "warn" (fun _ => (Except.ok () : Except PyErr Unit))).2.1
      (by decide),
   (init_enum_validation "xyz" (fun _ => (Except.ok () : Except PyErr Unit))).2.2.1
      (by decide),
   (init_enum_validation "doi" (fun _ => (Except.ok () : Except PyErr Unit))).2.2.2.1
      (by decide),
   (init_enum_validation "doi" (fun _ => (Except.ok () : Except PyErr Unit))).2.2.2.2.1⟩

/-- C6: mapping a JSON element in which every known key is populated
recovers every original value in the record, except `variant`, where the
`"$"` values of the name-variant entries (those not equal to the
affiliation name) are joined into one `";"`-separated string. -/
theorem mkAffiliation_round_trip (e n dc c co p : String)
    (vs : List VariantEntry) :
    (mkAffiliation ⟨some e, some n, some vs, some dc, some c, some co, some p⟩).eid
        = some e ∧
    (mkAffiliation ⟨some e, some n, some vs, some dc, some c, some co, some p⟩).name
        = some n ∧
    (mkAffiliation ⟨some e, some n, some vs, some dc, some c, some co, some p⟩).documents
        = dc ∧
    (mkAffiliation ⟨some e, some n, some vs, some dc, some c, some co, some p⟩).city
        = some c ∧
    (mkAffiliation ⟨some e, some n, some vs, some dc, some c, some co, some p⟩).country
        = some co ∧
    (mkAffiliation ⟨some e, some n, some vs, some dc, some c, some co, some p⟩).parent
        = some p ∧
    (mkAffiliation ⟨some e, some n, some vs, some dc, some c, some co, some p⟩).variant
        = String.intercalate ";"
            ((vs.filter (fun d => d.dollar.getD "" != n)).map
              (fun d => d.dollar.getD "")) := by
  refine ⟨rfl, rfl, rfl, rfl, rfl, rfl, ?_⟩
  simp only [mkAffiliation, variantsOf_eq_filter_map]
  rfl

/-- C7: the `variant` field of a produced record equals the `"$"` values
of the element's name-variant sub-list, with entries equal to the
affiliation name removed, joined with `";"` (an absent affiliation name
equals no string entry, so nothing is removed then). -/
theorem affiliation_variant_join (item : AffItem) :
    (mkAffiliation item).variant =
      String.intercalate ";"
        (((item.name_variant.getD []).filter
            (fun d => item.affiliation_name != some (d.dollar.getD ""))).map
          (fun d => d.dollar.getD "")) := by
  have hpred : ∀ d : VariantEntry,
      pyStrNeOpt (d.dollar.getD "") item.affiliation_name =
        (item.affiliation_name != some (d.dollar.getD "")) := by
    intro d
    cases h : item.affiliation_name with
    | none => rfl
    | some t => simp [pyStrNeOpt, bne, eq_comm]
  simp only [mkAffiliation, variantsOf_eq_filter_map]
  rw [List.filter_congr (fun d _ => hpred d)]

lemma categoryMetricsList_append (n : String) (l₁ l₂ : List CountCategory) :
    categoryMetricsList n (l₁ ++ l₂) =
      categoryMetricsList n l₁ ++ categoryMetricsList n l₂ := by
  induction l₁ with
  | nil => rfl
  | cons item rest ih =>
      simp only [List.cons_append, categoryMetricsList, List.append_eq, ih,
        List.append_assoc]

lemma categoryMetricsList_eq_flatMap (n : String) (l : List CountCategory) :
    categoryMetricsList n l =
      (l.filter (fun c => c.name == some n)).flatMap
        (fun c => c.count_types.getD []) := by
  induction l with
  | nil => rfl
  | cons item rest ih =>
      by_cases h : item.name = some n
      · simp [categoryMetricsList, List.filter_cons, h, ih]
      · simp [categoryMetricsList, List.filter_cons, h, ih]

lemma citationSourcesList_eq_flatMap (l : List CountType) :
    citationSourcesList l = l.flatMap (fun c => c.sources.getD []) := by
  induction l with
  | nil => rfl
  | cons item rest ih =>
      cases hs : item.sources with
      | none => simp [citationSourcesList, pyTruthyList, hs, ih]
      | some src =>
          cases src with
          | nil => simp [citationSourcesList, pyTruthyList, hs, ih]
          | cons a as => simp [citationSourcesList, pyTruthyList, hs, ih]

lemma citationSourcesList_append (l₁ l₂ : List CountType) :
    citationSourcesList (l₁ ++ l₂) =
      citationSourcesList l₁ ++ citationSourcesList l₂ := by
  simp [citationSourcesList_eq_flatMap]

/-- C8: `_category_metrics` collects exactly the `count_types` entries of
the categories whose name equals the requested one, concatenated in input
order; the per-category accessors are `_list_metrics_totals` of that
collection (shown for all four count-type based accessors); a category
with a different name contributes nothing wherever it sits in the list. -/
theorem category_metrics_filtering (n : String) (cats : List CountCategory)
    (j : PlumXJson) (pre post : List CountCategory) (c : CountCategory)
    (hc : c.name ≠ some n) :
    categoryMetricsList n cats =
      (cats.filter (fun cc => cc.name == some n)).flatMap
        (fun cc => cc.count_types.getD []) ∧
    capture j = orNone (list_metrics_totals
      ((((j.count_categories.getD []).filter
          (fun cc => cc.name == some "capture")).flatMap
        (fun cc => cc.count_types.getD [])).map CountType.kv)) ∧
    mention j = orNone (list_metrics_totals
      ((((j.count_categories.getD []).filter
          (fun cc => cc.name == some "mention")).flatMap
        (fun cc => cc.count_types.getD [])).map CountType.kv)) ∧
    social_media j = orNone (list_metrics_totals
      ((((j.count_categories.getD []).filter
          (fun cc => cc.name == some "socialMedia")).flatMap
        (fun cc => cc.count_types.getD [])).map CountType.kv)) ∧
    usage j = orNone (list_metrics_totals
      ((((j.count_categories.getD []).filter
          (fun cc => cc.name == some "usage")).flatMap
        (fun cc => cc.count_types.getD [])).map CountType.kv)) ∧
    categoryMetricsList n (pre ++ c :: post) =
      categoryMetricsList n (pre ++ post) := by
  refine ⟨categoryMetricsList_eq_flatMap n cats,
          ?_, ?_, ?_, ?_, ?_⟩
  · simp [capture, categoryMetricsList_eq_flatMap]
  · simp [mention, categoryMetricsList_eq_flatMap]
  · simp [social_media, categoryMetricsList_eq_flatMap]
  · simp [usage, categoryMetricsList_eq_flatMap]
  · have hone : categoryMetricsList n [c] = [] := by
      simp [categoryMetricsList, hc]
    calc categoryMetricsList n (pre ++ c :: post)
        = categoryMetricsList n pre ++ (categoryMetricsList n [c]
            ++ categoryMetricsList n post) := by
          rw [categoryMetricsList_append]
          rw [show c :: post = [c] ++ post from rfl, categoryMetricsList_append]
      _ = categoryMetricsList n (pre ++ post) := by
          rw [hone, categoryMetricsList_append]
          simp

theorem category_metrics_filtering_witness :
    categoryMetricsList "capture" [⟨some "capture", some 1, some []⟩] =
      (([⟨some "capture", some 1, some []⟩] :
          List CountCategory).filter (fun cc => cc.name == some "capture")).flatMap
        (fun cc => cc.count_types.getD []) ∧
    capture ⟨some []⟩ = orNone (list_metrics_totals
      (((([] : List CountCategory).filter
          (fun cc => cc.name == some "capture")).flatMap
        (fun cc => cc.count_types.getD [])).map CountType.kv)) ∧
    mention ⟨some []⟩ = orNone (list_metrics_totals
      (((([] : List CountCategory).filter
          (fun cc => cc.name == some "mention")).flatMap
        (fun cc => cc.count_types.getD [])).map CountType.kv)) ∧
    social_media ⟨some []⟩ = orNone (list_metrics_totals
      (((([] : List CountCategory).filter
          (fun cc => cc.name == some "socialMedia")).flatMap
        (fun cc => cc.count_types.getD [])).map CountType.kv)) ∧
    usage ⟨some []⟩ = orNone (list_metrics_totals
      (((([] : List CountCategory).filter
          (fun cc => cc.name == some "usage")).flatMap
        (fun cc => cc.count_types.getD [])).map CountType.kv)) ∧
    categoryMetricsList "capture" ([] ++ ⟨some "other", some 1, some []⟩ :: []) =
      categoryMetricsList "capture" ([] ++ []) :=
  category_metrics_filtering "capture" [⟨some "capture", some 1, some []⟩]
    ⟨some []⟩ [] [] ⟨some "other", some 1, some []⟩ (by decide)

/-- Whether every `Category` record in a list has a truthy name and a
truthy total. -/
def categoriesAllTruthy (l : List Category) : Bool :=
  l.all (fun r => pyTruthyStr r.name && pyTruthyInt r.total)

/-- Whether every `Metric` record in a list has a truthy name and a
truthy total. -/
def metricsAllTruthy (l : List Metric) : Bool :=
  l.all (fun r => pyTruthyStr r.name && pyTruthyInt r.total)

lemma orNone_getD (l : List α) : (orNone l).getD [] = l := by
  unfold orNone
  cases l <;> simp

lemma categoryTotalsList_truthy (l : List CountCategory) :
    categoriesAllTruthy (categoryTotalsList l) = true := by
  induction l with
  | nil => rfl
  | cons item rest ih =>
      cases h : (pyTruthyStr item.name && pyTruthyInt item.total) with
      | false => simpa [categoryTotalsList, h] using ih
      | true =>
          simp only [categoryTotalsList, h, if_true]
          simpa [categoriesAllTruthy, h] using ih

lemma list_metrics_totals_truthy (l : List (Option String × Option Int)) :
    metricsAllTruthy (list_metrics_totals l) = true := by
  rw [metricsAllTruthy, List.all_eq_true]
  intro r hr
  simp only [list_metrics_totals, List.mem_map, List.mem_filter] at hr
  obtain ⟨v, ⟨_, hv⟩, rfl⟩ := hr
  exact hv

lemma categoryTotalsList_append (l₁ l₂ : List CountCategory) :
    categoryTotalsList (l₁ ++ l₂) =
      categoryTotalsList l₁ ++ categoryTotalsList l₂ := by
  induction l₁ with
  | nil => rfl
  | cons item rest ih =>
      cases h : (pyTruthyStr item.name && pyTruthyInt item.total) with
      | false => simp [categoryTotalsList, h, ih]
      | true => simp [categoryTotalsList, h, ih]

/-- C9: every record produced by `category_totals` and by the per-category
accessors (including `citation`) has a truthy name and a truthy total,
and a source entry with a falsy name or total is silently dropped — it
contributes nothing wherever it sits in the input list. -/
theorem plumx_records_truthy (j : PlumXJson)
    (pre post : List CountCategory) (bad : CountCategory)
    (pre2 post2 : List (Option String × Option Int))
    (bm : Option String × Option Int)
    (hbad : (pyTruthyStr bad.name && pyTruthyInt bad.total) = false)
    (hbm : (pyTruthyStr bm.1 && pyTruthyInt bm.2) = false) :
    categoriesAllTruthy ((category_totals j).getD []) = true ∧
    metricsAllTruthy ((capture j).getD []) = true ∧
    metricsAllTruthy ((citation j).getD []) = true ∧
    metricsAllTruthy ((mention j).getD []) = true ∧
    metricsAllTruthy ((social_media j).getD []) = true ∧
    metricsAllTruthy ((usage j).getD []) = true ∧
    categoryTotalsList (pre ++ bad :: post) =
      categoryTotalsList (pre ++ post) ∧
    list_metrics_totals (pre2 ++ bm :: post2) =
      list_metrics_totals (pre2 ++ post2) := by
  refine ⟨?_, ?_, ?_, ?_, ?_, ?_, ?_, ?_⟩
  · rw [category_totals, orNone_getD]
    exact categoryTotalsList_truthy _
  · rw [capture, orNone_getD]
    exact list_metrics_totals_truthy _
  · rw [citation, orNone_getD]
    exact list_metrics_totals_truthy _
  · rw [mention, orNone_getD]
    exact list_metrics_totals_truthy _
  · rw [social_media, orNone_getD]
    exact list_metrics_totals_truthy _
  · rw [usage, orNone_getD]
    exact list_metrics_totals_truthy _
  · rw [categoryTotalsList_append, categoryTotalsList_append]
    simp [categoryTotalsList, hbad]
  · simp only [list_metrics_totals, List.filter_append, List.filter_cons, hbad,
      hbm, Bool.false_eq_true, if_false]

theorem plumx_records_truthy_witness :
    categoriesAllTruthy ((category_totals ⟨some [⟨some "usage", some 3, none⟩]⟩).getD [])
      = true ∧
    metricsAllTruthy ((capture ⟨some [⟨some "usage", some 3, none⟩]⟩).getD []) = true ∧
    metricsAllTruthy ((citation ⟨some [⟨some "usage", some 3, none⟩]⟩).getD []) = true ∧
    metricsAllTruthy ((mention ⟨some [⟨some "usage", some 3, none⟩]⟩).getD []) = true ∧
    metricsAllTruthy ((social_media ⟨some [⟨some "usage", some 3, none⟩]⟩).getD [])
      = true ∧
    metricsAllTruthy ((usage ⟨some [⟨some "usage", some 3, none⟩]⟩).getD []) = true ∧
    categoryTotalsList ([] ++ ⟨some "x", some 0, none⟩ :: []) =
      categoryTotalsList ([] ++ []) ∧
    list_metrics_totals ([] ++ (some "x", some 0) :: []) =
      list_metrics_totals ([] ++ []) :=
  plumx_records_truthy ⟨some [⟨some "usage", some 3, none⟩]⟩
    [] [] ⟨some "x", some 0, none⟩ [] [] (some "x", some 0)
    (by decide) (by decide)

/-- C10: `PlumXMetrics.citation` builds its records exclusively from the
`sources` sub-lists of the citation category's count-type entries: the
collected list is the concatenation of those sub-lists, a count-type
entry with a falsy `sources` key contributes nothing, and the returned
metrics carry the per-source names and totals. -/
theorem citation_from_sources (j : PlumXJson) (cts : List CountType)
    (pre post : List CountType) (ct : CountType)
    (hct : pyTruthyList ct.sources = false) :
    citationSourcesList cts = cts.flatMap (fun c => c.sources.getD []) ∧
    citation j = orNone (list_metrics_totals
      (((((j.count_categories.getD []).filter
            (fun cc => cc.name == some "citation")).flatMap
          (fun cc => cc.count_types.getD [])).flatMap
        (fun c => c.sources.getD [])).map SrcEntry.kv)) ∧
    citationSourcesList (pre ++ ct :: post) =
      citationSourcesList (pre ++ post) := by
  refine ⟨citationSourcesList_eq_flatMap cts, ?_, ?_⟩
  · rw [citation]
    have hsm : ∀ cm : List CountType,
        (if cm.isEmpty then [] else citationSourcesList cm) =
          citationSourcesList cm := by
      intro cm
      cases cm <;> rfl
    rw [hsm, citationSourcesList_eq_flatMap, categoryMetricsList_eq_flatMap]
  · rw [citationSourcesList_append, citationSourcesList_append]
    have hone : citationSourcesList [ct] = [] := by
      simp [citationSourcesList, hct]
    rw [show ct :: post = [ct] ++ post from rfl, citationSourcesList_append, hone]
    simp

theorem citation_from_sources_witness :
    citationSourcesList [⟨some "Scopus", some 2, some [⟨some "Scopus", some 2⟩]⟩] =
      ([⟨some "Scopus", some 2, some [⟨some "Scopus", some 2⟩]⟩] :
          List CountType).flatMap (fun c => c.sources.getD []) ∧
    citation ⟨some []⟩ = orNone (list_metrics_totals
      ((((([] : List CountCategory).filter
            (fun cc => cc.name == some "citation")).flatMap
          (fun cc => cc.count_types.getD [])).flatMap
        (fun c => c.sources.getD [])).map SrcEntry.kv)) ∧
    citationSourcesList ([] ++ ⟨some "c", some 5, none⟩ :: []) =
      citationSourcesList ([] ++ []) :=
  citation_from_sources ⟨some []⟩
    [⟨some "Scopus", some 2, some [⟨some "Scopus", some 2⟩]⟩]
    [] [] ⟨some "c", some 5, none⟩ (by decide)

end Pybliometrics
